import Mathlib

/-!
Verification development for the form-binding engine in `src/create-form.ts`.

The embedding models the DOM form as a list of controls (name, type, value,
checked state), JS objects as association lists from string keys to values,
and the handlers of `createForm` as pure state transformers.  Each definition
mirrors one function of the source file; doc comments name the source symbol.
-/

namespace Felte

/-- Model of a JS number as produced by the unary plus coercion: either NaN or
a finite rational value. -/
inductive JsNum
  | nan : JsNum
  | finite : Rat → JsNum
deriving DecidableEq, Repr

/-- Numeric value of a list of decimal digit characters. -/
def digitsToNat (cs : List Char) : Nat :=
  cs.foldl (fun n c => n * 10 + (c.toNat - 48)) 0

/-- Parse an unsigned decimal literal: digits, optionally followed by a dot
and more digits, with at least one digit overall.  Mirrors the decimal part
of the JS StringNumericLiteral grammar used by unary plus. -/
def parseUnsignedDec (cs : List Char) : Option Rat :=
  let intPart := cs.takeWhile Char.isDigit
  let rest := cs.dropWhile Char.isDigit
  match rest with
  | [] => if intPart.isEmpty then none else some (digitsToNat intPart)
  | c :: frac =>
    if c = '.' then
      if frac.all Char.isDigit && !(intPart.isEmpty && frac.isEmpty) then
        some ((digitsToNat intPart : Rat) + (digitsToNat frac : Rat) / ((10 : Rat) ^ frac.length))
      else none
    else none

/-- Whitespace test used when the numeric coercion trims its input (the
model covers the ASCII whitespace characters). -/
def isJsWhitespace (c : Char) : Bool :=
  c = ' ' || c = '\t' || c = '\n' || c = '\r'

/-- Trim of leading and trailing whitespace on a character list. -/
def trimChars (cs : List Char) : List Char :=
  ((cs.dropWhile isJsWhitespace).reverse.dropWhile isJsWhitespace).reverse

/-- Model of the JS unary plus applied to a string (the source writes
`+el.value`): surrounding whitespace is trimmed, the empty string coerces to
0, an optionally signed decimal literal parses to its value, and any other
string (the model omits exponent, hex and Infinity forms, which the claims do
not exercise) yields NaN. -/
def jsToNumber (s : String) : JsNum :=
  let cs := trimChars s.toList
  match cs with
  | [] => .finite 0
  | c :: rest =>
    if c = '+' then
      match parseUnsignedDec rest with
      | some q => .finite q
      | none => .nan
    else if c = '-' then
      match parseUnsignedDec rest with
      | some q => .finite (-q)
      | none => .nan
    else
      match parseUnsignedDec cs with
      | some q => .finite q
      | none => .nan

/-- Leaf value stored in the Data Record: string, number, boolean, array of
strings (checkbox groups), or undefined (unchecked radio group). -/
inductive JsValue
  | str : String → JsValue
  | num : JsNum → JsValue
  | bool : Bool → JsValue
  | arr : List String → JsValue
  | undefined : JsValue
deriving DecidableEq, Repr

/-- Look up a key in a JS-object model (association list); none means the
property is absent, i.e. reads as undefined. -/
def lookup {α : Type} : List (String × α) → String → Option α
  | [], _ => none
  | p :: r, k => if p.1 = k then some p.2 else lookup r k

/-- Set a key in a JS-object model: replace the value at the first entry with
that key, keeping its position, or append a fresh entry at the end.  This is
JS property assignment / object spread with a computed key. -/
def setKey {α : Type} : List (String × α) → String → α → List (String × α)
  | [], k, v => [(k, v)]
  | p :: r, k, v => if p.1 = k then (k, v) :: r else p :: setKey r k v

/-- Reading a property as a JS value, where an absent key reads as undefined. -/
def jsGet (m : List (String × JsValue)) (k : String) : JsValue :=
  match lookup m k with
  | some v => v
  | none => .undefined

/-- Model of JS strict equality on the values the engine stores.  NaN is not
strictly equal to itself; two array values compare by reference, and the
values compared by `newDataSet` come from distinct objects, so array values
are modelled as never strictly equal. -/
def jsStrictEq : JsValue → JsValue → Bool
  | .str a, .str b => a = b
  | .num (.finite a), .num (.finite b) => a = b
  | .num .nan, _ => false
  | .bool a, .bool b => a = b
  | .undefined, .undefined => true
  | .arr _, _ => false
  | _, _ => false

mutual
/-- Value of one property of a validator Errors Object: a string message or a
nested object. -/
inductive ErrVal
  | vStr : String → ErrVal
  | vObj : ErrObj → ErrVal
/-- A validator Errors Object: an ordered record of named error values. -/
inductive ErrObj
  | nil : ErrObj
  | cons : String → ErrVal → ErrObj → ErrObj
end

/-- JS truthiness of an errors value: a string is truthy iff non-empty, any
object is truthy (even when all of its leaves are empty strings). -/
def errTruthy : ErrVal → Bool
  | .vStr s => !(s = "")
  | .vObj _ => true

mutual
/-- Whether a truthy string leaf occurs anywhere in the nested value.  This
is the spec's reading of validity; the source never computes it. -/
def hasTruthyLeaf : ErrVal → Bool
  | .vStr s => !(s = "")
  | .vObj o => hasTruthyLeafObj o
/-- Truthy-leaf test over every property of an errors object. -/
def hasTruthyLeafObj : ErrObj → Bool
  | .nil => false
  | .cons _ v rest => hasTruthyLeaf v || hasTruthyLeafObj rest
end

/-- Truthy-leaf test at the top of an Errors Object. -/
def hasTruthyLeafErrors (e : ErrObj) : Bool :=
  hasTruthyLeafObj e

/-- The check `handleSubmit` performs on the Errors Object: some top-level
property is truthy (`Object.keys(currentErrors).some(key => truthy)`). -/
def jsHasErrors : ErrObj → Bool
  | .nil => false
  | .cons _ v rest => errTruthy v || jsHasErrors rest

/-- Kind of a form-associated element, as the source's duck-typed guards
`isInputElement` / `isTextAreaElement` distinguish them. -/
inductive ElKind
  | input
  | textarea
  | other
deriving DecidableEq, Repr

/-- Model of one control of the bound form: element kind, `name`, `type`,
`value` and `checked` attributes. -/
structure Control where
  kind : ElKind
  name : String
  type : String
  value : String
  checked : Bool
deriving DecidableEq, Repr

/-- Guard shared by every handler in the source:
`(!isInputElement(el) && !isTextAreaElement(el)) || !el.name` skips the
element. -/
def namedFormControl (c : Control) : Bool :=
  (c.kind = .input || c.kind = .textarea) && !(c.name = "")

/-- Numeric-type test `el.type.match` against the anchored number-or-range
pattern. -/
def isNumericType (t : String) : Bool :=
  t = "number" || t = "range"

/-- The inline codec expression shared by the Snapshot Builder and the input
handler: numeric types coerce the raw value with unary plus, every other type
stores the raw string. -/
def codecValue (c : Control) : JsValue :=
  if isNumericType c.type then .num (jsToNumber c.value) else .str c.value

/-- JS `typeof x === undefined-string` test on a property read. -/
def isUndefOpt : Option JsValue → Bool
  | none => true
  | some .undefined => true
  | some _ => false

/-- JS `Array.isArray` on a property read. -/
def isArrOpt : Option JsValue → Bool
  | some (.arr _) => true
  | _ => false

/-- In-place `push` onto a stored array value, as the Snapshot Builder's
`(defaultData[name] as string-array).push(value)` does; a non-array value is
left unchanged. -/
def jsPushStr : JsValue → String → JsValue
  | .arr l, v => .arr (l ++ [v])
  | x, _ => x

/-- Push a value onto the array stored at a key, mutating the entry in place. -/
def pushValueAt (d : List (String × JsValue)) (k v : String) : List (String × JsValue) :=
  d.map (fun p => if p.1 = k then (p.1, jsPushStr p.2 v) else p)

/-- Data-object part of one iteration of the Snapshot Builder's loop over
`node.elements` (`setFormFieldsDefaultValues` in the source); `node` is the
full element list, used by the `querySelectorAll` sibling count.  A skipped
element leaves `defaultData` unchanged; a first-seen checkbox name stores a
boolean or seeds an array depending on the sibling count; a later same-named
checkbox appends its value to an existing array when checked; a checked radio
stores its value; every other control stores the codec value. -/
def snapStepData (node : List Control) (d : List (String × JsValue)) (el : Control) :
    List (String × JsValue) :=
  if !namedFormControl el then d
  else if el.kind = .input && el.type = "checkbox" then
    if isUndefOpt (lookup d el.name) then
      if (node.filter (fun c => c.name = el.name)).length = 1 then
        setKey d el.name (.bool el.checked)
      else setKey d el.name (.arr (if el.checked then [el.value] else []))
    else
      if isArrOpt (lookup d el.name) && el.checked then pushValueAt d el.name el.value
      else d
  else if el.kind = .input && el.type = "radio" && el.checked then
    setKey d el.name (.str el.value)
  else
    setKey d el.name (codecValue el)

/-- Touched-map part of one iteration of the Snapshot Builder's loop: every
non-skipped element has its name's touched entry set to false. -/
def snapStepTouched (t : List (String × Bool)) (el : Control) : List (String × Bool) :=
  if !namedFormControl el then t else setKey t el.name false

/-- One iteration of the Snapshot Builder's loop, combining the touched
update (performed before the branch dispatch in the source) and the
`defaultData` update of the matching branch. -/
def snapStep (node : List Control) (acc : List (String × JsValue) × List (String × Bool))
    (el : Control) : List (String × JsValue) × List (String × Bool) :=
  (snapStepData node acc.1 el, snapStepTouched acc.2 el)

/-- The Snapshot Builder `setFormFieldsDefaultValues`: walk the form's
elements once, building `defaultData` from an empty object and updating the
touched store (initial value `t0`); the resulting data object fully replaces
the data store. -/
def setFormFieldsDefaultValues (node : List Control) (t0 : List (String × Bool)) :
    List (String × JsValue) × List (String × Bool) :=
  node.foldl (snapStep node) ([], t0)

/-- The `handleInput` listener: on input/textarea targets with a non-empty
name whose type is neither checkbox nor radio, mark the field touched and
store the codec value; otherwise do nothing. -/
def handleInput (target : Control)
    (st : List (String × JsValue) × List (String × Bool)) :
    List (String × JsValue) × List (String × Bool) :=
  if !(target.kind = .input) && !(target.kind = .textarea) then st
  else if target.type = "checkbox" || target.type = "radio" then st
  else if target.name = "" then st
  else (setKey st.1 target.name (codecValue target), setKey st.2 target.name true)

/-- The `setCheckboxValues` helper: re-scan the same-named siblings; a lone
control stores its boolean checked state, a group stores the values of the
currently checked members in DOM order. -/
def setCheckboxValues (node : List Control) (target : Control)
    (d : List (String × JsValue)) : List (String × JsValue) :=
  let checkboxes := node.filter (fun c => c.name = target.name)
  if checkboxes.length = 1 then setKey d target.name (.bool target.checked)
  else setKey d target.name (.arr ((checkboxes.filter (fun c => c.checked)).map (fun c => c.value)))

/-- The `setRadioValues` helper: store the value of the checked same-named
input, or undefined when none is checked. -/
def setRadioValues (node : List Control) (target : Control)
    (d : List (String × JsValue)) : List (String × JsValue) :=
  let radios := node.filter (fun c => c.name = target.name)
  match radios.find? (fun c => c.kind = .input && c.checked) with
  | some r => setKey d target.name (.str r.value)
  | none => setKey d target.name .undefined

/-- The `handleChange` listener: only input elements with a non-empty name
are handled; the field is marked touched, and checkbox or radio targets have
their aggregate value recomputed. -/
def handleChange (node : List Control) (target : Control)
    (st : List (String × JsValue) × List (String × Bool)) :
    List (String × JsValue) × List (String × Bool) :=
  if !(target.kind = .input) then st
  else if target.name = "" then st
  else
    let t := setKey st.2 target.name true
    let d :=
      if target.type = "checkbox" then setCheckboxValues node target st.1
      else if target.type = "radio" then setRadioValues node target st.1
      else st.1
    (d, t)

/-- The `handleBlur` listener: input/textarea targets with a non-empty name
are marked touched; the data object is never changed. -/
def handleBlur (target : Control)
    (st : List (String × JsValue) × List (String × Bool)) :
    List (String × JsValue) × List (String × Bool) :=
  if !(target.kind = .input) && !(target.kind = .textarea) then st
  else if target.name = "" then st
  else (st.1, setKey st.2 target.name true)

/-- Configuration passed to `createForm`, restricted to what the handlers
read: the constraint-API flag, whether an onError handler was supplied, and
the optional initialValues object. -/
structure Config where
  useConstraintApi : Bool
  hasOnError : Bool
  initialValues : Option (List (String × JsValue))

/-- State of the three stores a submit reads. -/
structure FormState where
  data : List (String × JsValue)
  touched : List (String × Bool)
  errors : ErrObj

/-- Observable events of one run of `handleSubmit`, in execution order. -/
inductive Ev
  | setSubmitting : Bool → Ev
  | preventDefault : Ev
  | reportValidity : Ev
  | callOnSubmit : List (String × JsValue) → Ev
  | callOnError : String → Ev
deriving DecidableEq, Repr

/-- Result of one run of `handleSubmit`: the event trace, the updated touched
map, and the error that escapes the handler (rethrown from the catch block)
if any. -/
structure SubmitOut where
  trace : List Ev
  touched : List (String × Bool)
  rethrown : Option String
deriving Repr

/-- The touched update performed at the top of `handleSubmit`:
reduce over the object's keys, force-setting every entry to true. -/
def forceAllTouched (t : List (String × Bool)) : List (String × Bool) :=
  (t.map Prod.fst).foldl (fun acc key => setKey acc key true) t

/-- The `handleSubmit` orchestrator.  `thr` models whether the awaited
consumer callback `config.onSubmit` throws (with which message).  The body
sets the in-flight flag, suppresses default submission, force-marks every
touched entry, reads the Errors Object and halts (reporting native validity
when enabled) if any top-level property is truthy; otherwise it calls the
consumer callback with the current data snapshot.  A thrown error is passed
to `config.onError` when one is configured and rethrown otherwise; the
finally block clears the in-flight flag on every path. -/
def handleSubmit (cfg : Config) (st : FormState) (thr : Option String) : SubmitOut :=
  let t1 := forceAllTouched st.touched
  let pre : List Ev := [.setSubmitting true, .preventDefault]
  if jsHasErrors st.errors then
    { trace := pre ++ (if cfg.useConstraintApi then [.reportValidity] else []) ++
        [.setSubmitting false],
      touched := t1, rethrown := none }
  else
    match thr with
    | none =>
      { trace := pre ++ [.callOnSubmit st.data, .setSubmitting false],
        touched := t1, rethrown := none }
    | some e =>
      if cfg.hasOnError then
        { trace := pre ++ [.callOnSubmit st.data, .callOnError e, .setSubmitting false],
          touched := t1, rethrown := none }
      else
        { trace := pre ++ [.callOnSubmit st.data, .setSubmitting false],
          touched := t1, rethrown := some e }

/-- Whether a trace contains a call of the consumer submit callback. -/
def isSubmitCall : Ev → Bool
  | .callOnSubmit _ => true
  | _ => false

/-- Whether `handleSubmit` invoked the consumer submit callback. -/
def callsOnSubmit (tr : List Ev) : Bool :=
  tr.any isSubmitCall

/-- Value of the in-flight flag after replaying a trace. -/
def finalSubmitting (tr : List Ev) : Bool :=
  tr.foldl (fun s e => match e with | .setSubmitting b => b | _ => s) false

/-- Value of the in-flight flag at the moment of the first consumer-callback
call in a trace, if any. -/
def subAtCall : Bool → List Ev → Option Bool
  | _, [] => none
  | _, .setSubmitting b :: r => subAtCall b r
  | s, .callOnSubmit _ :: _ => some s
  | s, _ :: r => subAtCall s r

/-- The four listener slots of the binding. -/
inductive Handler
  | hInput
  | hChange
  | hBlur
  | hSubmit
deriving DecidableEq, Repr

/-- Listener registry of a bound form plus the constraint-API errors
subscription flag. -/
structure Binding where
  listeners : List (String × Handler)
  errorsSubscribed : Bool
deriving Repr

/-- DOM `removeEventListener`: remove the entry matching event type and
handler, if present. -/
def removeListener (ls : List (String × Handler)) (ty : String) (h : Handler) :
    List (String × Handler) :=
  ls.filter (fun p => !(p.1 = ty && p.2 = h))

/-- The `form` bind function's attachment phase: add listeners for the event
types `input`, `change`, `focusout` and `submit`, and subscribe to the Errors
store when the constraint API is enabled. -/
def bindForm (useConstraintApi : Bool) : Binding :=
  { listeners := [("input", .hInput), ("change", .hChange), ("focusout", .hBlur),
      ("submit", .hSubmit)],
    errorsSubscribed := useConstraintApi }

/-- The returned `destroy` function: it removes the `input`, `change` and
`submit` listeners, calls `removeEventListener` with the literal event type
string spelled `foucsout` for the blur handler, and cancels the errors
subscription when one was made. -/
def destroyBinding (b : Binding) : Binding :=
  { listeners :=
      removeListener (removeListener (removeListener (removeListener b.listeners
        "input" .hInput) "change" .hChange) "foucsout" .hBlur) "submit" .hSubmit,
    errorsSubscribed := false }

/-- The overridden `data.set` returned as `newDataSet`: collect the keys of
currently-falsy touched entries, then for each such key set its touched flag
to whether the new value strictly differs from `config.initialValues` at that
key — a property read that throws a TypeError when `initialValues` is absent
— and finally replace the data object with the new values. -/
def newDataSet (cfg : Config) (values : List (String × JsValue))
    (touched : List (String × Bool)) :
    Except String (List (String × Bool) × List (String × JsValue)) := do
  let untouchedKeys := (touched.filter (fun p => !p.2)).map Prod.fst
  let t1 ← untouchedKeys.foldlM
    (fun acc key =>
      match cfg.initialValues with
      | none => Except.error "TypeError: cannot read properties of undefined"
      | some init =>
        Except.ok (setKey acc key (!(jsStrictEq (jsGet values key) (jsGet init key)))))
    touched
  Except.ok (t1, values)

/-- Whether the overridden set threw. -/
def isErrorE {α : Type} : Except String α → Bool
  | .error _ => true
  | .ok _ => false

theorem lookup_setKey_self {α : Type} (m : List (String × α)) (k : String) (v : α) :
    lookup (setKey m k v) k = some v := by
  induction m with
  | nil => simp [setKey, lookup]
  | cons p r ih =>
    by_cases h : p.1 = k
    · simp [setKey, h, lookup]
    · simp [setKey, h, lookup, ih]

theorem lookup_setKey_other {α : Type} (m : List (String × α)) (k k' : String) (v : α)
    (h : ¬ k' = k) : lookup (setKey m k v) k' = lookup m k' := by
  induction m with
  | nil =>
    simp only [setKey, lookup]
    rw [if_neg (fun hh => h hh.symm)]
  | cons p r ih =>
    by_cases hp : p.1 = k
    · simp only [setKey, if_pos hp, lookup]
      rw [if_neg (fun hh => h hh.symm), if_neg (fun hh => h (hp ▸ hh).symm)]
    · simp only [setKey, if_neg hp, lookup, ih]

theorem mem_setKey {α : Type} (m : List (String × α)) (k : String) (v : α) (p : String × α)
    (h : p ∈ setKey m k v) : p = (k, v) ∨ p ∈ m := by
  induction m with
  | nil => simpa [setKey] using h
  | cons q r ih =>
    by_cases hq : q.1 = k
    · simp only [setKey, if_pos hq, List.mem_cons] at h
      rcases h with h | h
      · exact Or.inl h
      · exact Or.inr (List.mem_cons_of_mem _ h)
    · simp only [setKey, if_neg hq, List.mem_cons] at h
      rcases h with h | h
      · exact Or.inr (h ▸ List.mem_cons_self _ _)
      · rcases ih h with h' | h'
        · exact Or.inl h'
        · exact Or.inr (List.mem_cons_of_mem _ h')

theorem mem_keys_setKey {α : Type} (m : List (String × α)) (k : String) (v : α) (x : String)
    (h : x ∈ (setKey m k v).map Prod.fst) : x = k ∨ x ∈ m.map Prod.fst := by
  rcases List.mem_map.1 h with ⟨p, hp, hx⟩
  rcases mem_setKey m k v p hp with h' | h'
  · exact Or.inl (by rw [← hx, h'])
  · exact Or.inr (List.mem_map.2 ⟨p, h', hx⟩)

theorem nodup_keys_setKey {α : Type} (m : List (String × α)) (k : String) (v : α)
    (h : (m.map Prod.fst).Nodup) : ((setKey m k v).map Prod.fst).Nodup := by
  induction m with
  | nil => simp [setKey]
  | cons p r ih =>
    simp only [List.map_cons, List.nodup_cons] at h
    by_cases hp : p.1 = k
    · simp only [setKey, if_pos hp, List.map_cons, List.nodup_cons]
      exact ⟨hp ▸ h.1, h.2⟩
    · simp only [setKey, if_neg hp, List.map_cons, List.nodup_cons]
      refine ⟨fun hmem => ?_, ih h.2⟩
      rcases mem_keys_setKey r k v p.1 hmem with h' | h'
      · exact hp h'
      · exact h.1 h'

theorem keys_pushValueAt (d : List (String × JsValue)) (k v : String) :
    (pushValueAt d k v).map Prod.fst = d.map Prod.fst := by
  induction d with
  | nil => rfl
  | cons p r ih =>
    by_cases hp : p.1 = k
    · simp [pushValueAt, hp, List.map_cons] at ih ⊢
      exact ih
    · simp [pushValueAt, hp, List.map_cons] at ih ⊢
      exact ih

theorem lookup_pushValueAt_other (d : List (String × JsValue)) (k v : String) (k' : String)
    (h : ¬ k' = k) : lookup (pushValueAt d k v) k' = lookup d k' := by
  induction d with
  | nil => rfl
  | cons p r ih =>
    by_cases hp : p.1 = k
    · have hp' : ¬ p.1 = k' := fun hh => h (hh.symm.trans hp)
      simp only [pushValueAt, List.map_cons, if_pos hp, lookup, if_neg hp'] at ih ⊢
      exact ih
    · by_cases hp' : p.1 = k'
      · simp only [pushValueAt, List.map_cons, if_neg hp, lookup, if_pos hp']
      · simp only [pushValueAt, List.map_cons, if_neg hp, lookup, if_neg hp']
        exact ih

theorem lookup_pushValueAt_self (d : List (String × JsValue)) (k v : String) :
    lookup (pushValueAt d k v) k = (lookup d k).map (fun x => jsPushStr x v) := by
  induction d with
  | nil => rfl
  | cons p r ih =>
    by_cases hp : p.1 = k
    · simp only [pushValueAt, List.map_cons, if_pos hp, lookup]
      rfl
    · simp only [pushValueAt, List.map_cons, if_neg hp, lookup, if_neg hp]
      exact ih

theorem lookup_foldl_setKey_not_mem {α : Type} (us : List String) (f : String → α)
    (m : List (String × α)) (k : String) (h : k ∉ us) :
    lookup (us.foldl (fun acc key => setKey acc key (f key)) m) k = lookup m k := by
  induction us generalizing m with
  | nil => rfl
  | cons u rest ih =>
    have hne : ¬ k = u := fun hh => h (hh ▸ List.mem_cons_self _ _)
    have hrest : k ∉ rest := fun hh => h (List.mem_cons_of_mem _ hh)
    simp only [List.foldl_cons]
    rw [ih _ hrest, lookup_setKey_other _ _ _ _ hne]

theorem lookup_foldl_setKey_mem {α : Type} (us : List String) (f : String → α)
    (m : List (String × α)) (k : String) (h : k ∈ us) :
    lookup (us.foldl (fun acc key => setKey acc key (f key)) m) k = some (f k) := by
  induction us generalizing m with
  | nil => exact absurd h (List.not_mem_nil _)
  | cons u rest ih =>
    by_cases hr : k ∈ rest
    · simp only [List.foldl_cons]
      exact ih _ hr
    · have hk : k = u := by
        rcases List.mem_cons.1 h with h' | h'
        · exact h'
        · exact absurd h' hr
      simp only [List.foldl_cons]
      rw [lookup_foldl_setKey_not_mem _ _ _ _ hr, hk, lookup_setKey_self]

theorem lookup_forceAllTouched (t : List (String × Bool)) (k : String) (b : Bool)
    (h : (k, b) ∈ t) : lookup (forceAllTouched t) k = some true := by
  have hk : k ∈ t.map Prod.fst := List.mem_map.2 ⟨(k, b), h, rfl⟩
  exact lookup_foldl_setKey_mem (t.map Prod.fst) (fun _ => true) t k hk

theorem namedFormControl_true (c : Control) (h1 : c.kind = ElKind.input ∨ c.kind = ElKind.textarea)
    (h2 : ¬ c.name = "") : namedFormControl c = true := by
  rcases h1 with h | h <;> simp [namedFormControl, h, h2]

theorem namedFormControl_name (c : Control) (h : namedFormControl c = true) :
    ¬ c.name = "" := by
  simp only [namedFormControl, Bool.and_eq_true, Bool.not_eq_true', decide_eq_false_iff_not] at h
  exact h.2

theorem snapStepTouched_eq (t : List (String × Bool)) (el : Control) :
    snapStepTouched t el = if namedFormControl el then setKey t el.name false else t := by
  by_cases h : namedFormControl el = true
  · simp [snapStepTouched, h]
  · simp only [Bool.not_eq_true] at h
    simp [snapStepTouched, h]

theorem snapStepData_lookup_ne (node : List Control) (d : List (String × JsValue))
    (el : Control) (n : String) (h : ¬ el.name = n) :
    lookup (snapStepData node d el) n = lookup d n := by
  have hn : ¬ n = el.name := fun hh => h hh.symm
  unfold snapStepData
  generalize (if el.checked = true then [el.value] else []) = av
  split
  · rfl
  · split
    · split
      · split
        · exact lookup_setKey_other _ _ _ _ hn
        · exact lookup_setKey_other _ _ _ _ hn
      · split
        · exact lookup_pushValueAt_other _ _ _ _ hn
        · rfl
    · split
      · exact lookup_setKey_other _ _ _ _ hn
      · exact lookup_setKey_other _ _ _ _ hn

theorem snapStepData_checkbox_first (node : List Control) (d : List (String × JsValue))
    (el : Control)
    (hn' : ¬ el.name = "") (hk : el.kind = ElKind.input) (ht : el.type = "checkbox")
    (hd : lookup d el.name = none) :
    lookup (snapStepData node d el) el.name =
      some (if (node.filter (fun c => c.name = el.name)).length = 1
            then JsValue.bool el.checked
            else JsValue.arr (if el.checked then [el.value] else [])) := by
  have hnamed : namedFormControl el = true := namedFormControl_true el (Or.inl hk) hn'
  by_cases hlen : (node.filter (fun c => c.name = el.name)).length = 1
  · simp [snapStepData, hnamed, hk, ht, hd, isUndefOpt, hlen, lookup_setKey_self]
  · simp [snapStepData, hnamed, hk, ht, hd, isUndefOpt, hlen, lookup_setKey_self]

theorem snapStepData_checkbox_arr (node : List Control) (d : List (String × JsValue))
    (el : Control) (l : List String)
    (hn' : ¬ el.name = "") (hk : el.kind = ElKind.input) (ht : el.type = "checkbox")
    (hd : lookup d el.name = some (JsValue.arr l)) :
    lookup (snapStepData node d el) el.name =
      some (JsValue.arr (l ++ (if el.checked then [el.value] else []))) := by
  have hnamed : namedFormControl el = true := namedFormControl_true el (Or.inl hk) hn'
  by_cases hc : el.checked = true
  · simp [snapStepData, hnamed, hk, ht, hd, isUndefOpt, isArrOpt, hc, lookup_pushValueAt_self,
      jsPushStr]
  · simp only [Bool.not_eq_true] at hc
    simp [snapStepData, hnamed, hk, ht, hd, isUndefOpt, isArrOpt, hc]

theorem snapStepData_checkbox_bool (node : List Control) (d : List (String × JsValue))
    (el : Control) (b : Bool)
    (hn' : ¬ el.name = "") (hk : el.kind = ElKind.input) (ht : el.type = "checkbox")
    (hd : lookup d el.name = some (JsValue.bool b)) :
    lookup (snapStepData node d el) el.name = some (JsValue.bool b) := by
  have hnamed : namedFormControl el = true := namedFormControl_true el (Or.inl hk) hn'
  simp [snapStepData, hnamed, hk, ht, hd, isUndefOpt, isArrOpt]

theorem snapFold_data_arr (node : List Control) (n : String) (hn : ¬ n = "")
    (els : List Control) :
    ∀ (acc : List (String × JsValue) × List (String × Bool)) (l : List String),
      (∀ c ∈ els, c.name = n → c.kind = ElKind.input ∧ c.type = "checkbox") →
      lookup acc.1 n = some (JsValue.arr l) →
      lookup (els.foldl (snapStep node) acc).1 n =
        some (JsValue.arr (l ++ (els.filter (fun c => c.name = n && c.checked)).map
          (fun c => c.value))) := by
  induction els with
  | nil => intro acc l _ hacc; simpa using hacc
  | cons e rest ih =>
    intro acc l hall hacc
    simp only [List.foldl_cons]
    by_cases he : e.name = n
    · obtain ⟨hk, ht⟩ := hall e (List.mem_cons_self _ _) he
      have hne : ¬ e.name = "" := by rw [he]; exact hn
      have hstep : lookup (snapStep node acc e).1 n =
          some (JsValue.arr (l ++ (if e.checked then [e.value] else []))) := by
        have h1 := snapStepData_checkbox_arr node acc.1 e l hne hk ht (by rw [he]; exact hacc)
        rw [he] at h1
        exact h1
      rw [ih (snapStep node acc e) (l ++ (if e.checked then [e.value] else []))
        (fun c hc hcn => hall c (List.mem_cons_of_mem _ hc) hcn) hstep]
      by_cases hc : e.checked = true
      · simp [List.filter_cons, he, hc, List.append_assoc]
      · simp only [Bool.not_eq_true] at hc
        simp [List.filter_cons, he, hc]
    · have hstep : lookup (snapStep node acc e).1 n = lookup acc.1 n :=
        snapStepData_lookup_ne node acc.1 e n he
      rw [ih (snapStep node acc e) l
        (fun c hc hcn => hall c (List.mem_cons_of_mem _ hc) hcn) (hstep.trans hacc)]
      simp [List.filter_cons, he]

theorem snapFold_data_bool (node : List Control) (n : String) (hn : ¬ n = "")
    (els : List Control) :
    ∀ (acc : List (String × JsValue) × List (String × Bool)) (b : Bool),
      (∀ c ∈ els, c.name = n → c.kind = ElKind.input ∧ c.type = "checkbox") →
      lookup acc.1 n = some (JsValue.bool b) →
      lookup (els.foldl (snapStep node) acc).1 n = some (JsValue.bool b) := by
  induction els with
  | nil => intro acc b _ hacc; simpa using hacc
  | cons e rest ih =>
    intro acc b hall hacc
    simp only [List.foldl_cons]
    by_cases he : e.name = n
    · obtain ⟨hk, ht⟩ := hall e (List.mem_cons_self _ _) he
      have hne : ¬ e.name = "" := by rw [he]; exact hn
      have hstep : lookup (snapStep node acc e).1 n = some (JsValue.bool b) := by
        have h1 := snapStepData_checkbox_bool node acc.1 e b hne hk ht (by rw [he]; exact hacc)
        rw [he] at h1
        exact h1
      exact ih (snapStep node acc e) b
        (fun c hc hcn => hall c (List.mem_cons_of_mem _ hc) hcn) hstep
    · have hstep : lookup (snapStep node acc e).1 n = lookup acc.1 n :=
        snapStepData_lookup_ne node acc.1 e n he
      exact ih (snapStep node acc e) b
        (fun c hc hcn => hall c (List.mem_cons_of_mem _ hc) hcn) (hstep.trans hacc)

theorem snapFold_data_group (node : List Control) (n : String) (hn : ¬ n = "")
    (hN : ¬ (node.filter (fun c => c.name = n)).length = 1)
    (els : List Control) :
    ∀ (acc : List (String × JsValue) × List (String × Bool)),
      (∀ c ∈ els, c.name = n → c.kind = ElKind.input ∧ c.type = "checkbox") →
      lookup acc.1 n = none →
      lookup (els.foldl (snapStep node) acc).1 n =
        (if els.any (fun c => c.name = n) then
          some (JsValue.arr ((els.filter (fun c => c.name = n && c.checked)).map
            (fun c => c.value)))
        else none) := by
  induction els with
  | nil => intro acc _ hacc; simpa using hacc
  | cons e rest ih =>
    intro acc hall hacc
    simp only [List.foldl_cons]
    by_cases he : e.name = n
    · obtain ⟨hk, ht⟩ := hall e (List.mem_cons_self _ _) he
      have hne : ¬ e.name = "" := by rw [he]; exact hn
      have hstep : lookup (snapStep node acc e).1 n =
          some (JsValue.arr (if e.checked then [e.value] else [])) := by
        have h1 := snapStepData_checkbox_first node acc.1 e hne hk ht
          (by rw [he]; exact hacc)
        rw [he] at h1
        rw [if_neg hN] at h1
        exact h1
      rw [snapFold_data_arr node n hn rest (snapStep node acc e)
        (if e.checked then [e.value] else [])
        (fun c hc hcn => hall c (List.mem_cons_of_mem _ hc) hcn) hstep]
      by_cases hc : e.checked = true
      · simp [List.filter_cons, List.any_cons, he, hc]
      · simp only [Bool.not_eq_true] at hc
        simp [List.filter_cons, List.any_cons, he, hc]
    · have hstep : lookup (snapStep node acc e).1 n = lookup acc.1 n :=
        snapStepData_lookup_ne node acc.1 e n he
      rw [ih (snapStep node acc e)
        (fun c hc hcn => hall c (List.mem_cons_of_mem _ hc) hcn) (hstep.trans hacc)]
      simp [List.filter_cons, List.any_cons, he]

theorem snapFold_data_single (node : List Control) (n : String) (hn : ¬ n = "")
    (c : Control) (hf : node.filter (fun x => x.name = n) = [c])
    (els : List Control) :
    ∀ (acc : List (String × JsValue) × List (String × Bool)),
      (∀ x ∈ els, x.name = n → x.kind = ElKind.input ∧ x.type = "checkbox") →
      els.Sublist node →
      lookup acc.1 n = none →
      lookup (els.foldl (snapStep node) acc).1 n =
        (if els.any (fun x => x.name = n) then some (JsValue.bool c.checked) else none) := by
  induction els with
  | nil => intro acc _ _ hacc; simpa using hacc
  | cons e rest ih =>
    intro acc hall hsub hacc
    have hrest : rest.Sublist node := (List.sublist_cons_self e rest).trans hsub
    simp only [List.foldl_cons]
    by_cases he : e.name = n
    · obtain ⟨hk, ht⟩ := hall e (List.mem_cons_self _ _) he
      have hne : ¬ e.name = "" := by rw [he]; exact hn
      have hmem : e ∈ node := hsub.subset (List.mem_cons_self _ _)
      have hec : e = c := by
        have : e ∈ node.filter (fun x => x.name = n) :=
          List.mem_filter.2 ⟨hmem, by simp [he]⟩
        rw [hf] at this
        simpa using this
      have hstep : lookup (snapStep node acc e).1 n = some (JsValue.bool c.checked) := by
        have h1 := snapStepData_checkbox_first node acc.1 e hne hk ht
          (by rw [he]; exact hacc)
        rw [he] at h1
        rw [if_pos (by rw [hf]; rfl : (node.filter (fun x => x.name = n)).length = 1)] at h1
        have h2 : lookup (snapStep node acc e).1 n = some (JsValue.bool e.checked) := h1
        rw [h2, hec]
      rw [snapFold_data_bool node n hn rest (snapStep node acc e) c.checked
        (fun x hx hxn => hall x (List.mem_cons_of_mem _ hx) hxn) hstep]
      simp [List.any_cons, he]
    · have hstep : lookup (snapStep node acc e).1 n = lookup acc.1 n :=
        snapStepData_lookup_ne node acc.1 e n he
      rw [ih (snapStep node acc e)
        (fun x hx hxn => hall x (List.mem_cons_of_mem _ hx) hxn) hrest (hstep.trans hacc)]
      simp [List.any_cons, he]

theorem snapStepData_skip (node : List Control) (d : List (String × JsValue)) (el : Control)
    (h : namedFormControl el = false) : snapStepData node d el = d := by
  simp [snapStepData, h]

theorem mem_keys_snapStepData (node : List Control) (d : List (String × JsValue))
    (el : Control) (x : String) (h : x ∈ (snapStepData node d el).map Prod.fst) :
    x = el.name ∨ x ∈ d.map Prod.fst := by
  unfold snapStepData at h
  split at h
  · exact Or.inr h
  · split at h
    · split at h
      · split at h
        · exact mem_keys_setKey _ _ _ _ h
        · exact mem_keys_setKey _ _ _ _ h
      · split at h
        · rw [keys_pushValueAt] at h
          exact Or.inr h
        · exact Or.inr h
    · split at h
      · exact mem_keys_setKey _ _ _ _ h
      · exact mem_keys_setKey _ _ _ _ h

theorem snapFold_touched_false (node : List Control) (els : List Control) :
    ∀ (acc : List (String × JsValue) × List (String × Bool)) (k : String),
      lookup acc.2 k = some false →
      lookup (els.foldl (snapStep node) acc).2 k = some false := by
  induction els with
  | nil => intro acc k h; simpa using h
  | cons e rest ih =>
    intro acc k h
    simp only [List.foldl_cons]
    apply ih
    rw [show (snapStep node acc e).2 = snapStepTouched acc.2 e from rfl, snapStepTouched_eq]
    by_cases hn : namedFormControl e = true
    · rw [if_pos hn]
      by_cases hk : e.name = k
      · rw [hk, lookup_setKey_self]
      · rw [lookup_setKey_other _ _ _ _ (fun hh => hk hh.symm)]
        exact h
    · rw [if_neg (by simp [hn])]
      exact h

theorem snapFold_touched_mem (node : List Control) (c : Control) (hmem : c ∈ node)
    (hkind : c.kind = ElKind.input ∨ c.kind = ElKind.textarea) (hname : ¬ c.name = "")
    (acc : List (String × JsValue) × List (String × Bool)) :
    lookup (node.foldl (snapStep node) acc).2 c.name = some false := by
  obtain ⟨s1, s2, rfl⟩ := List.append_of_mem hmem
  rw [List.foldl_append]
  simp only [List.foldl_cons]
  apply snapFold_touched_false
  show lookup (snapStepTouched (List.foldl (snapStep (s1 ++ c :: s2)) acc s1).2 c) c.name =
    some false
  rw [snapStepTouched_eq, if_pos (namedFormControl_true c hkind hname), lookup_setKey_self]

theorem snapFold_touched_entries (node : List Control) (els : List Control) :
    ∀ (acc : List (String × JsValue) × List (String × Bool)),
      (∀ p ∈ acc.2, p.2 = false ∧ ¬ p.1 = "") →
      ∀ p ∈ (els.foldl (snapStep node) acc).2, p.2 = false ∧ ¬ p.1 = "" := by
  induction els with
  | nil => intro acc h; simpa using h
  | cons e rest ih =>
    intro acc h
    simp only [List.foldl_cons]
    apply ih
    intro p hp
    rw [show (snapStep node acc e).2 = snapStepTouched acc.2 e from rfl,
      snapStepTouched_eq] at hp
    by_cases hn : namedFormControl e = true
    · rw [if_pos hn] at hp
      rcases mem_setKey _ _ _ _ hp with h' | h'
      · rw [h']
        exact ⟨rfl, namedFormControl_name e hn⟩
      · exact h p h'
    · rw [if_neg (by simp [hn])] at hp
      exact h p hp

theorem snapFold_touched_nodup (node : List Control) (els : List Control) :
    ∀ (acc : List (String × JsValue) × List (String × Bool)),
      (acc.2.map Prod.fst).Nodup →
      (((els.foldl (snapStep node) acc).2).map Prod.fst).Nodup := by
  induction els with
  | nil => intro acc h; simpa using h
  | cons e rest ih =>
    intro acc h
    simp only [List.foldl_cons]
    apply ih
    rw [show (snapStep node acc e).2 = snapStepTouched acc.2 e from rfl, snapStepTouched_eq]
    by_cases hn : namedFormControl e = true
    · rw [if_pos hn]
      exact nodup_keys_setKey _ _ _ h
    · rw [if_neg (by simp [hn])]
      exact h

theorem snapFold_data_keys (node : List Control) (els : List Control) :
    ∀ (acc : List (String × JsValue) × List (String × Bool)),
      (∀ k ∈ acc.1.map Prod.fst, ¬ k = "") →
      ∀ k ∈ (els.foldl (snapStep node) acc).1.map Prod.fst, ¬ k = "" := by
  induction els with
  | nil => intro acc h; simpa using h
  | cons e rest ih =>
    intro acc h
    simp only [List.foldl_cons]
    apply ih
    intro k hk
    by_cases hn : namedFormControl e = true
    · rcases mem_keys_snapStepData node acc.1 e k hk with h' | h'
      · rw [h']
        exact namedFormControl_name e hn
      · exact h k h'
    · rw [show (snapStep node acc e).1 = snapStepData node acc.1 e from rfl,
        snapStepData_skip node acc.1 e (by simpa using hn)] at hk
      exact h k hk

theorem foldlM_except_ok {α β : Type} (f : β → α → β) (l : List α) :
    ∀ (b : β),
      l.foldlM (fun acc x => (Except.ok (f acc x) : Except String β)) b =
        Except.ok (l.foldl f b) := by
  induction l with
  | nil => intro b; rfl
  | cons x r ih =>
    intro b
    rw [List.foldlM_cons, List.foldl_cons]
    show (Except.ok (f b x) >>= fun b2 =>
        r.foldlM (fun acc y => (Except.ok (f acc y) : Except String β)) b2) = _
    rw [show ∀ (a : β) (g : β → Except String β), (Except.ok a >>= g) = g a from
      fun a g => rfl]
    exact ih (f b x)

theorem foldlM_except_ok_bind {α β γ : Type} (f : β → α → β) (g : β → γ) (l : List α)
    (b : β) :
    (l.foldlM (fun acc x => (Except.ok (f acc x) : Except String β)) b >>=
      fun t1 => (Except.ok (g t1) : Except String γ)) = Except.ok (g (l.foldl f b)) := by
  rw [foldlM_except_ok f l b]
  rfl

theorem newDataSet_some (cfg : Config) (init values : List (String × JsValue))
    (touched : List (String × Bool)) (h : cfg.initialValues = some init) :
    newDataSet cfg values touched =
      Except.ok (((touched.filter (fun p => !p.2)).map Prod.fst).foldl
        (fun acc key => setKey acc key (!(jsStrictEq (jsGet values key) (jsGet init key))))
        touched, values) := by
  unfold newDataSet
  rw [h]
  exact foldlM_except_ok_bind
    (fun acc key => setKey acc key (!(jsStrictEq (jsGet values key) (jsGet init key))))
    (fun t1 => (t1, values)) _ touched

theorem newDataSet_isError (cfg : Config) (values : List (String × JsValue))
    (touched : List (String × Bool)) :
    isErrorE (newDataSet cfg values touched) =
      (cfg.initialValues.isNone && touched.any (fun p => !p.2)) := by
  cases hinit : cfg.initialValues with
  | some init =>
    rw [newDataSet_some cfg init values touched hinit]
    simp [isErrorE]
  | none =>
    unfold newDataSet
    rw [hinit]
    cases hu : (touched.filter (fun p => !p.2)).map Prod.fst with
    | nil =>
      have hf : touched.filter (fun p => !p.2) = [] := List.map_eq_nil_iff.mp hu
      have hany : touched.any (fun p => !p.2) = false := by
        rw [List.any_eq_false]
        intro p hp
        have := (List.filter_eq_nil_iff.mp hf) p hp
        simpa using this
      show isErrorE (Except.ok (touched, values)) =
        ((none : Option (List (String × JsValue))).isNone && touched.any fun p => !p.2)
      rw [hany]
      rfl
    | cons k ks =>
      have hne : touched.filter (fun p => !p.2) ≠ [] := by
        intro hnil
        rw [hnil] at hu
        simp at hu
      have hany : touched.any (fun p => !p.2) = true := by
        obtain ⟨p, hp⟩ := List.exists_mem_of_ne_nil _ hne
        have hp2 := List.mem_filter.mp hp
        exact List.any_eq_true.mpr ⟨p, hp2.1, hp2.2⟩
      show isErrorE (Except.error "TypeError: cannot read properties of undefined"
          : Except String (List (String × Bool) × List (String × JsValue))) =
        ((none : Option (List (String × JsValue))).isNone && touched.any fun p => !p.2)
      rw [hany]
      rfl

theorem lookup_eq_of_mem_nodup {α : Type} (t : List (String × α)) (k : String) (b : α)
    (hnd : (t.map Prod.fst).Nodup) (h : (k, b) ∈ t) : lookup t k = some b := by
  induction t with
  | nil => cases h
  | cons p r ih =>
    rw [List.map_cons, List.nodup_cons] at hnd
    rcases List.mem_cons.1 h with h' | h'
    · rw [← h']
      simp [lookup]
    · have hpk : ¬ p.1 = k := by
        intro hpk
        have hkr : k ∈ r.map Prod.fst := List.mem_map.2 ⟨(k, b), h', rfl⟩
        exact hnd.1 (hpk ▸ hkr)
      simp only [lookup, if_neg hpk]
      exact ih hnd.2 h'

theorem handleSubmit_err (cfg : Config) (st : FormState) (thr : Option String)
    (he : jsHasErrors st.errors = true) :
    handleSubmit cfg st thr =
      ⟨[Ev.setSubmitting true, Ev.preventDefault] ++
        (if cfg.useConstraintApi then [Ev.reportValidity] else []) ++
        [Ev.setSubmitting false],
       forceAllTouched st.touched, none⟩ := by
  unfold handleSubmit
  rw [if_pos he]

theorem handleSubmit_ok (cfg : Config) (st : FormState)
    (he : jsHasErrors st.errors = false) :
    handleSubmit cfg st none =
      ⟨[Ev.setSubmitting true, Ev.preventDefault, Ev.callOnSubmit st.data,
        Ev.setSubmitting false],
       forceAllTouched st.touched, none⟩ := by
  unfold handleSubmit
  rw [if_neg (by rw [he]; exact Bool.false_ne_true)]
  rfl

theorem handleSubmit_throw_handled (cfg : Config) (st : FormState) (e : String)
    (he : jsHasErrors st.errors = false) (ho : cfg.hasOnError = true) :
    handleSubmit cfg st (some e) =
      ⟨[Ev.setSubmitting true, Ev.preventDefault, Ev.callOnSubmit st.data,
        Ev.callOnError e, Ev.setSubmitting false],
       forceAllTouched st.touched, none⟩ := by
  unfold handleSubmit
  rw [if_neg (by rw [he]; exact Bool.false_ne_true)]
  simp [ho]

theorem handleSubmit_throw_rethrown (cfg : Config) (st : FormState) (e : String)
    (he : jsHasErrors st.errors = false) (ho : cfg.hasOnError = false) :
    handleSubmit cfg st (some e) =
      ⟨[Ev.setSubmitting true, Ev.preventDefault, Ev.callOnSubmit st.data,
        Ev.setSubmitting false],
       forceAllTouched st.touched, some e⟩ := by
  unfold handleSubmit
  rw [if_neg (by rw [he]; exact Bool.false_ne_true)]
  simp [ho]

/-- Claim C2: the claim states that destroy removes all four listeners that
bind attached and cancels the Errors subscription.  Evaluating the embedded
lifecycle shows the code does not: bind attaches four listeners, destroy
removes only three of them — the focus-lost listener stays attached because
the removal call spells the event type `foucsout` — while the errors
subscription is indeed cancelled. -/
theorem c2_destroy_leaves_focusout_listener :
    (bindForm true).listeners.length = 4 ∧
    (destroyBinding (bindForm true)).listeners = [("focusout", Handler.hBlur)] ∧
    (destroyBinding (bindForm true)).errorsSubscribed = false := by
  decide

/-- Claim C3: the claim states that a control named `profile.picture` is
stored under the nested path marked by the dots.  Evaluating the embedded
Snapshot Builder shows the code stores the value under the flat dotted key
and creates no `profile` entry at all. -/
theorem c3_dotted_name_stored_flat :
    lookup (setFormFieldsDefaultValues
      [⟨ElKind.input, "profile.picture", "file", "", false⟩] []).1 "profile.picture" =
      some (JsValue.str "") ∧
    lookup (setFormFieldsDefaultValues
      [⟨ElKind.input, "profile.picture", "file", "", false⟩] []).1 "profile" = none := by
  decide

/-- Claim C10: calling the overridden data.set throws exactly when
config.initialValues is absent and at least one touched entry is currently
false (each untouched key dereferences the absent initialValues object); the
call completes normally when initialValues was supplied or every field is
already touched. -/
theorem c10_data_set_throws_without_initial_values (cfg : Config)
    (values : List (String × JsValue)) (touched : List (String × Bool)) :
    isErrorE (newDataSet cfg values touched) =
      (cfg.initialValues.isNone && touched.any (fun p => !p.2)) :=
  newDataSet_isError cfg values touched

/-- Claim C9: a focus-lost event on a named input or textarea sets that
field's touched entry to true and leaves the data record unchanged, and a
change event on a named input whose type is neither checkbox nor radio does
the same. -/
theorem c9_blur_and_change_touch_only (target : Control)
    (d : List (String × JsValue)) (t : List (String × Bool)) :
    ((target.kind = ElKind.input ∨ target.kind = ElKind.textarea) → ¬ target.name = "" →
      handleBlur target (d, t) = (d, setKey t target.name true)) ∧
    (∀ node : List Control, target.kind = ElKind.input → ¬ target.name = "" →
      ¬ target.type = "checkbox" → ¬ target.type = "radio" →
      handleChange node target (d, t) = (d, setKey t target.name true)) := by
  constructor
  · rintro (hk | hk) hn <;> simp [handleBlur, hk, hn]
  · intro node hk hn hc hr
    simp [handleChange, hk, hn, hc, hr]

/-- Witness for C9 at a concrete email input. -/
theorem c9_witness :
    handleBlur ⟨ElKind.input, "email", "email", "", false⟩ ([], [("email", false)]) =
      ([], setKey [("email", false)] "email" true) ∧
    handleChange [] ⟨ElKind.input, "email", "email", "", false⟩ ([], []) =
      ([], setKey ([] : List (String × Bool)) "email" true) :=
  ⟨(c9_blur_and_change_touch_only ⟨ElKind.input, "email", "email", "", false⟩ []
      [("email", false)]).1 (Or.inl rfl) (by decide),
   (c9_blur_and_change_touch_only ⟨ElKind.input, "email", "email", "", false⟩ [] []).2
      [] rfl (by decide) (by decide) (by decide)⟩

/-- Claim C8: for controls of type number or range, both the Snapshot Builder
and the input handler store the numeric coercion of the raw string value, an
unparsable string coercing to NaN rather than an error; every other type
that is not checkbox or radio stores the raw string unmodified. -/
theorem c8_numeric_coercion (c : Control) (d : List (String × JsValue))
    (t : List (String × Bool)) (t0 : List (String × Bool))
    (hkind : c.kind = ElKind.input ∨ c.kind = ElKind.textarea) (hn : ¬ c.name = "") :
    ((c.type = "number" ∨ c.type = "range") →
      handleInput c (d, t) =
        (setKey d c.name (JsValue.num (jsToNumber c.value)), setKey t c.name true) ∧
      lookup (setFormFieldsDefaultValues [c] t0).1 c.name =
        some (JsValue.num (jsToNumber c.value))) ∧
    (¬ c.type = "checkbox" → ¬ c.type = "radio" → ¬ c.type = "number" → ¬ c.type = "range" →
      handleInput c (d, t) =
        (setKey d c.name (JsValue.str c.value), setKey t c.name true) ∧
      lookup (setFormFieldsDefaultValues [c] t0).1 c.name = some (JsValue.str c.value)) ∧
    jsToNumber "abc" = JsNum.nan := by
  refine ⟨?_, ?_, by decide⟩
  · intro htype
    have hcb : ¬ c.type = "checkbox" := by
      rcases htype with ht | ht <;> rw [ht] <;> decide
    have hrd : ¬ c.type = "radio" := by
      rcases htype with ht | ht <;> rw [ht] <;> decide
    have hnum : isNumericType c.type = true := by
      rcases htype with ht | ht <;> simp [isNumericType, ht]
    constructor
    · rcases hkind with hk | hk <;>
        simp [handleInput, hk, hn, hcb, hrd, codecValue, hnum]
    · rcases hkind with hk | hk <;>
        simp [setFormFieldsDefaultValues, snapStep, snapStepData, snapStepTouched,
          namedFormControl, hk, hn, hcb, hrd, codecValue, hnum, lookup_setKey_self]
  · intro hcb hrd hnum hrange
    have hnum' : isNumericType c.type = false := by
      simp [isNumericType, hnum, hrange]
    constructor
    · rcases hkind with hk | hk <;>
        simp [handleInput, hk, hn, hcb, hrd, codecValue, hnum']
    · rcases hkind with hk | hk <;>
        simp [setFormFieldsDefaultValues, snapStep, snapStepData, snapStepTouched,
          namedFormControl, hk, hn, hcb, hrd, codecValue, hnum', lookup_setKey_self]

/-- Witness for C8 at a number input holding the unparsable string value. -/
theorem c8_witness :
    handleInput ⟨ElKind.input, "age", "number", "abc", false⟩ ([], []) =
      (setKey [] "age" (JsValue.num (jsToNumber "abc")),
        setKey ([] : List (String × Bool)) "age" true) ∧
    lookup (setFormFieldsDefaultValues [⟨ElKind.input, "age", "number", "abc", false⟩] []).1
      "age" = some (JsValue.num (jsToNumber "abc")) :=
  (c8_numeric_coercion ⟨ElKind.input, "age", "number", "abc", false⟩ [] [] []
    (Or.inl rfl) (by decide)).1 (Or.inl rfl)

/-- Claim C1 counterexample: an Errors Object whose only leaf is the empty
string has no truthy leaf anywhere in its nested structure, yet submitting
does not invoke the consumer callback, because the top-level check treats the
nested object value itself as truthy. -/
theorem c1_counterexample_nested_falsy_leaves :
    hasTruthyLeafErrors (ErrObj.cons "account"
      (ErrVal.vObj (ErrObj.cons "email" (ErrVal.vStr "") ErrObj.nil)) ErrObj.nil) = false ∧
    callsOnSubmit (handleSubmit ⟨false, false, none⟩
      ⟨[("email", JsValue.str "")], [("email", false)],
        ErrObj.cons "account" (ErrVal.vObj (ErrObj.cons "email" (ErrVal.vStr "") ErrObj.nil))
          ErrObj.nil⟩ none).trace = false := by
  constructor
  · rfl
  · rfl

/-- Claim C1 (amended): the consumer submit callback is invoked if and only
if no top-level property of the Errors Object is JS-truthy — a nested object
value counts as truthy even when every leaf inside it is falsy — and in every
case (errors or not) every touched entry is force-set to true. -/
theorem c1_submit_gated_by_top_level_truthiness (cfg : Config) (st : FormState)
    (thr : Option String) :
    callsOnSubmit (handleSubmit cfg st thr).trace = !(jsHasErrors st.errors) ∧
    (∀ k b, (k, b) ∈ st.touched →
      lookup (handleSubmit cfg st thr).touched k = some true) := by
  constructor
  · by_cases he : jsHasErrors st.errors = true
    · rw [handleSubmit_err cfg st thr he, he]
      cases hu : cfg.useConstraintApi <;>
        simp [hu, callsOnSubmit, isSubmitCall]
    · have he' : jsHasErrors st.errors = false := by
        rcases Bool.dichotomy (jsHasErrors st.errors) with h | h
        · exact h
        · exact absurd h he
      cases thr with
      | none =>
        rw [handleSubmit_ok cfg st he', he']
        simp [callsOnSubmit, isSubmitCall]
      | some e =>
        cases ho : cfg.hasOnError with
        | true =>
          rw [handleSubmit_throw_handled cfg st e he' ho, he']
          simp [callsOnSubmit, isSubmitCall]
        | false =>
          rw [handleSubmit_throw_rethrown cfg st e he' ho, he']
          simp [callsOnSubmit, isSubmitCall]
  · intro k b hmem
    have ht : (handleSubmit cfg st thr).touched = forceAllTouched st.touched := by
      by_cases he : jsHasErrors st.errors = true
      · rw [handleSubmit_err cfg st thr he]
      · have he' : jsHasErrors st.errors = false := by
          rcases Bool.dichotomy (jsHasErrors st.errors) with h | h
          · exact h
          · exact absurd h he
        cases thr with
        | none => rw [handleSubmit_ok cfg st he']
        | some e =>
          cases ho : cfg.hasOnError with
          | true => rw [handleSubmit_throw_handled cfg st e he' ho]
          | false => rw [handleSubmit_throw_rethrown cfg st e he' ho]
    rw [ht]
    exact lookup_forceAllTouched st.touched k b hmem

/-- Witness for C1 (amended) at a concrete state with no errors. -/
theorem c1_witness :
    lookup (handleSubmit ⟨false, false, none⟩
      ⟨[], [("email", false)], ErrObj.nil⟩ none).touched "email" = some true ∧
    callsOnSubmit (handleSubmit ⟨false, false, none⟩
      ⟨[], [("email", false)], ErrObj.nil⟩ none).trace = true := by
  constructor
  · exact (c1_submit_gated_by_top_level_truthiness ⟨false, false, none⟩
      ⟨[], [("email", false)], ErrObj.nil⟩ none).2 "email" false (by decide)
  · rw [(c1_submit_gated_by_top_level_truthiness ⟨false, false, none⟩
      ⟨[], [("email", false)], ErrObj.nil⟩ none).1]
    rfl

/-- Claim C4: the in-flight flag is set true as the first action of every
submit handling and reset to false as the last action on every path; with no
errors the consumer callback is called exactly once with the current data
snapshot and the flag is true at the moment of the call; a thrown callback
error is delivered to the configured onError handler when one exists and is
rethrown to the caller otherwise, the flag still ending false. -/
theorem c4_submitting_lifecycle (cfg : Config) (st : FormState) (thr : Option String) :
    (handleSubmit cfg st thr).trace.head? = some (Ev.setSubmitting true) ∧
    (∃ tr0, (handleSubmit cfg st thr).trace = tr0 ++ [Ev.setSubmitting false]) ∧
    finalSubmitting (handleSubmit cfg st thr).trace = false ∧
    (jsHasErrors st.errors = false →
      (handleSubmit cfg st thr).trace.count (Ev.callOnSubmit st.data) = 1) ∧
    subAtCall false (handleSubmit cfg st thr).trace ≠ some false ∧
    (∀ e, thr = some e → jsHasErrors st.errors = false →
      (cfg.hasOnError = true →
        (handleSubmit cfg st thr).trace.count (Ev.callOnError e) = 1 ∧
        (handleSubmit cfg st thr).rethrown = none) ∧
      (cfg.hasOnError = false → (handleSubmit cfg st thr).rethrown = some e)) := by
  by_cases he : jsHasErrors st.errors = true
  · rw [handleSubmit_err cfg st thr he]
    cases hu : cfg.useConstraintApi
    · refine ⟨rfl, ⟨[Ev.setSubmitting true, Ev.preventDefault], by simp [hu]⟩, ?_, ?_, ?_, ?_⟩
      · simp [hu, finalSubmitting]
      · intro h
        rw [h] at he
        exact absurd he Bool.false_ne_true
      · simp [hu, subAtCall]
      · intro e _ h
        rw [h] at he
        exact absurd he Bool.false_ne_true
    · refine ⟨rfl,
        ⟨[Ev.setSubmitting true, Ev.preventDefault, Ev.reportValidity], by simp [hu]⟩,
        ?_, ?_, ?_, ?_⟩
      · simp [hu, finalSubmitting]
      · intro h
        rw [h] at he
        exact absurd he Bool.false_ne_true
      · simp [hu, subAtCall]
      · intro e _ h
        rw [h] at he
        exact absurd he Bool.false_ne_true
  · have he' : jsHasErrors st.errors = false := by
      rcases Bool.dichotomy (jsHasErrors st.errors) with h | h
      · exact h
      · exact absurd h he
    cases thr with
    | none =>
      rw [handleSubmit_ok cfg st he']
      refine ⟨rfl, ⟨[Ev.setSubmitting true, Ev.preventDefault, Ev.callOnSubmit st.data],
        rfl⟩, ?_, ?_, ?_, ?_⟩
      · simp [finalSubmitting]
      · intro _
        simp [List.count_cons, List.count_nil]
      · simp [subAtCall]
      · intro e h
        exact absurd h (by simp)
    | some e0 =>
      cases ho : cfg.hasOnError with
      | true =>
        rw [handleSubmit_throw_handled cfg st e0 he' ho]
        refine ⟨rfl, ⟨[Ev.setSubmitting true, Ev.preventDefault, Ev.callOnSubmit st.data,
          Ev.callOnError e0], rfl⟩, ?_, ?_, ?_, ?_⟩
        · simp [finalSubmitting]
        · intro _
          simp [List.count_cons, List.count_nil]
        · simp [subAtCall]
        · intro e he0 _
          have : e0 = e := by
            injection he0
          refine ⟨fun _ => ⟨?_, rfl⟩, fun hfalse => ?_⟩
          · rw [← this]
            simp [List.count_cons, List.count_nil]
          · exact absurd hfalse (by decide)
      | false =>
        rw [handleSubmit_throw_rethrown cfg st e0 he' ho]
        refine ⟨rfl, ⟨[Ev.setSubmitting true, Ev.preventDefault, Ev.callOnSubmit st.data],
          rfl⟩, ?_, ?_, ?_, ?_⟩
        · simp [finalSubmitting]
        · intro _
          simp [List.count_cons, List.count_nil]
        · simp [subAtCall]
        · intro e he0 _
          have heq : e0 = e := by
            injection he0
          refine ⟨fun htrue => ?_, fun _ => by rw [heq]⟩
          · exact absurd htrue (by decide)

/-- Witness for C4: a submit whose callback throws with no onError configured
rethrows the error and still ends with the flag false. -/
theorem c4_witness :
    (handleSubmit ⟨false, false, none⟩ ⟨[], [], ErrObj.nil⟩ (some "boom")).rethrown =
      some "boom" ∧
    finalSubmitting (handleSubmit ⟨false, false, none⟩ ⟨[], [], ErrObj.nil⟩
      (some "boom")).trace = false := by
  constructor
  · exact ((c4_submitting_lifecycle ⟨false, false, none⟩ ⟨[], [], ErrObj.nil⟩
      (some "boom")).2.2.2.2.2 "boom" rfl rfl).2 rfl
  · exact (c4_submitting_lifecycle ⟨false, false, none⟩ ⟨[], [], ErrObj.nil⟩
      (some "boom")).2.2.1

/-- Claim C6: after binding, every named input or textarea element of the
form has a touched entry equal to false; touched keys are free of duplicates
(exactly one entry per distinct name); every touched entry holds false and a
non-empty key; and neither the touched map nor the data record gains an entry
for the empty name. -/
theorem c6_touched_initialized (node : List Control) (c : Control) :
    (c ∈ node → (c.kind = ElKind.input ∨ c.kind = ElKind.textarea) → ¬ c.name = "" →
      lookup (setFormFieldsDefaultValues node []).2 c.name = some false) ∧
    (((setFormFieldsDefaultValues node []).2.map Prod.fst).Nodup) ∧
    (∀ p ∈ (setFormFieldsDefaultValues node []).2, p.2 = false ∧ ¬ p.1 = "") ∧
    (∀ k ∈ (setFormFieldsDefaultValues node []).1.map Prod.fst, ¬ k = "") := by
  refine ⟨?_, ?_, ?_, ?_⟩
  · intro hmem hkind hname
    exact snapFold_touched_mem node c hmem hkind hname ([], [])
  · exact snapFold_touched_nodup node node ([], []) (by simp)
  · exact snapFold_touched_entries node node ([], []) (by simp)
  · exact snapFold_data_keys node node ([], []) (by simp)

/-- Witness for C6 at a one-input form. -/
theorem c6_witness :
    lookup (setFormFieldsDefaultValues [⟨ElKind.input, "email", "email", "", false⟩] []).2
      "email" = some false :=
  (c6_touched_initialized [⟨ElKind.input, "email", "email", "", false⟩]
    ⟨ElKind.input, "email", "email", "", false⟩).1 (by decide) (Or.inl rfl) (by decide)

/-- Claim C7: the overridden data.set reconciles touched before replacing the
data: with initialValues supplied it succeeds, a field whose touched entry is
true keeps it true, and a field whose touched entry is false gets exactly the
truth of whether the new value strictly differs from the original initial
value for that key. -/
theorem c7_data_set_reconciles_touched (cfg : Config)
    (init values : List (String × JsValue)) (touched : List (String × Bool))
    (k : String) (b : Bool)
    (hinit : cfg.initialValues = some init)
    (hnd : (touched.map Prod.fst).Nodup) (hmem : (k, b) ∈ touched) :
    ∃ t1, newDataSet cfg values touched = Except.ok (t1, values) ∧
      lookup t1 k = some (if b then true
        else !(jsStrictEq (jsGet values k) (jsGet init k))) := by
  rw [newDataSet_some cfg init values touched hinit]
  refine ⟨_, rfl, ?_⟩
  by_cases hb : b = true
  · have hk : k ∉ (touched.filter (fun p => !p.2)).map Prod.fst := by
      intro hkin
      rcases List.mem_map.1 hkin with ⟨p, hp, hpk⟩
      have hpf := List.mem_filter.1 hp
      have hp2 : p.2 = false := by
        have := hpf.2
        simpa using this
      have hpmem : (k, false) ∈ touched := by
        have : p = (k, false) := by
          rcases p with ⟨p1, p2⟩
          simp only at hpk hp2
          rw [hpk, hp2]
        rw [← this]
        exact hpf.1
      have h1 := lookup_eq_of_mem_nodup touched k b hnd hmem
      have h2 := lookup_eq_of_mem_nodup touched k false hnd hpmem
      rw [h1] at h2
      rw [hb] at h2
      exact absurd (Option.some.inj h2) (by decide)
    rw [lookup_foldl_setKey_not_mem _ _ _ _ hk]
    rw [lookup_eq_of_mem_nodup touched k b hnd hmem, hb]
    rfl
  · have hb' : b = false := by
      rcases Bool.dichotomy b with h | h
      · exact h
      · exact absurd h hb
    have hk : k ∈ (touched.filter (fun p => !p.2)).map Prod.fst := by
      refine List.mem_map.2 ⟨(k, b), List.mem_filter.2 ⟨hmem, ?_⟩, rfl⟩
      rw [hb']
      rfl
    rw [lookup_foldl_setKey_mem _
      (fun key => !(jsStrictEq (jsGet values key) (jsGet init key))) _ _ hk, hb']
    rfl

/-- Witness for C7: an untouched field whose new value differs from its
initial value is marked touched. -/
theorem c7_witness :
    ∃ t1, newDataSet ⟨false, false, some [("a", JsValue.str "x")]⟩
        [("a", JsValue.str "y")] [("a", false)] =
        Except.ok (t1, [("a", JsValue.str "y")]) ∧
      lookup t1 "a" = some (if false then true
        else !(jsStrictEq (jsGet [("a", JsValue.str "y")] "a")
          (jsGet [("a", JsValue.str "x")] "a"))) :=
  c7_data_set_reconciles_touched ⟨false, false, some [("a", JsValue.str "x")]⟩
    [("a", JsValue.str "x")] [("a", JsValue.str "y")] [("a", false)] "a" false
    rfl (by decide) (by decide)

/-- Claim C5: for a name carried by exactly one checkbox control the data
value is the boolean checked state, and for a name shared by several checkbox
controls the value is the array of value attributes of exactly the checked
ones in DOM order — at snapshot time and after a change event recomputes the
aggregate. -/
theorem c5_checkbox_single_vs_group (node : List Control) (n : String)
    (t0 : List (String × Bool)) (hn : ¬ n = "")
    (hall : ∀ x ∈ node, x.name = n → x.kind = ElKind.input ∧ x.type = "checkbox") :
    (∀ c, node.filter (fun x => x.name = n) = [c] →
      lookup (setFormFieldsDefaultValues node t0).1 n = some (JsValue.bool c.checked)) ∧
    (2 ≤ (node.filter (fun x => x.name = n)).length →
      lookup (setFormFieldsDefaultValues node t0).1 n =
        some (JsValue.arr ((node.filter (fun x => x.name = n && x.checked)).map
          (fun x => x.value)))) ∧
    (∀ (target : Control) (d : List (String × JsValue)) (t : List (String × Bool)),
      target ∈ node → target.name = n →
      ((node.filter (fun x => x.name = n) = [target] →
        lookup (handleChange node target (d, t)).1 n =
          some (JsValue.bool target.checked)) ∧
      (2 ≤ (node.filter (fun x => x.name = n)).length →
        lookup (handleChange node target (d, t)).1 n =
          some (JsValue.arr ((node.filter (fun x => x.name = n && x.checked)).map
            (fun x => x.value)))))) := by
  refine ⟨?_, ?_, ?_⟩
  · intro c hf
    have hcmem : c ∈ node.filter (fun x => x.name = n) := by
      rw [hf]
      exact List.mem_cons_self _ _
    have hcf := List.mem_filter.1 hcmem
    have hany : node.any (fun x => x.name = n) = true :=
      List.any_eq_true.2 ⟨c, hcf.1, hcf.2⟩
    have h2 : lookup (setFormFieldsDefaultValues node t0).1 n =
        (if node.any (fun x => x.name = n) then some (JsValue.bool c.checked) else none) :=
      snapFold_data_single node n hn c hf node ([], t0) hall (List.Sublist.refl node) rfl
    rw [h2, if_pos hany]
  · intro hlen2
    have hN : ¬ (node.filter (fun x => x.name = n)).length = 1 := by omega
    have hpos : (node.filter (fun x => x.name = n)) ≠ [] := by
      intro hnil
      rw [hnil] at hlen2
      simp at hlen2
    obtain ⟨x, hx⟩ := List.exists_mem_of_ne_nil _ hpos
    have hxf := List.mem_filter.1 hx
    have hany : node.any (fun x => x.name = n) = true :=
      List.any_eq_true.2 ⟨x, hxf.1, hxf.2⟩
    have h2 : lookup (setFormFieldsDefaultValues node t0).1 n =
        (if node.any (fun x => x.name = n) then
          some (JsValue.arr ((node.filter (fun x => x.name = n && x.checked)).map
            (fun x => x.value)))
        else none) :=
      snapFold_data_group node n hn hN node ([], t0) hall rfl
    rw [h2, if_pos hany]
  · intro target d t hmem htn
    obtain ⟨hk, ht⟩ := hall target hmem htn
    have hname : ¬ target.name = "" := by
      rw [htn]
      exact hn
    have hch : handleChange node target (d, t) =
        (setCheckboxValues node target d, setKey t target.name true) := by
      simp [handleChange, hk, ht, hname]
    constructor
    · intro hf
      have hlen : (node.filter (fun c2 => c2.name = target.name)).length = 1 := by
        rw [htn, hf]
        rfl
      rw [hch]
      show lookup (setCheckboxValues node target d) n = _
      unfold setCheckboxValues
      rw [if_pos hlen, htn, lookup_setKey_self]
    · intro hlen2
      have hlen : ¬ (node.filter (fun c2 => c2.name = target.name)).length = 1 := by
        rw [htn]
        omega
      rw [hch]
      show lookup (setCheckboxValues node target d) n = _
      unfold setCheckboxValues
      rw [if_neg hlen, htn, lookup_setKey_self, List.filter_filter]
      have hcomm : List.filter (fun a => a.checked && decide (a.name = n)) node =
          List.filter (fun x => decide (x.name = n) && x.checked) node :=
        List.filter_congr (fun a _ => Bool.and_comm _ _)
      rw [hcomm]

/-- Witness for C5: a two-checkbox group with the first box pre-checked
snapshots to the singleton array of its value. -/
theorem c5_witness :
    lookup (setFormFieldsDefaultValues
      [⟨ElKind.input, "preferences", "checkbox", "technology", true⟩,
       ⟨ElKind.input, "preferences", "checkbox", "films", false⟩] []).1 "preferences" =
      some (JsValue.arr ["technology"]) := by
  have h := (c5_checkbox_single_vs_group
    [⟨ElKind.input, "preferences", "checkbox", "technology", true⟩,
     ⟨ElKind.input, "preferences", "checkbox", "films", false⟩] "preferences" []
    (by decide) (by decide)).2.1 (by decide)
  rw [h]
  rfl

end Felte
